import Mathlib

/-!
Verification of the stream-translation core of the reverse_ai_api gateway
(src/provider_handler.py, src/provider_loader.py).

The Python code is shallowly embedded:
* JSON documents are the inductive `JValue` (numbers are modelled as integers;
  no claim involves floating point).
* `json.loads` is abstracted as a parameter `pj : String → Option JValue`
  (returning `none` on a parse failure, mirroring the `except` clause of
  `parse_sse_line`); theorems quantify over it.
* Python strings are Lean `String`; the handful of string operations the code
  uses (`strip`, `split`, `startswith`, slicing, `in`) are defined
  character-structurally below so that they mirror Python semantics and
  evaluate inside the kernel.
* Python exceptions are modelled with `Except Unit`: a `.error` value marks a
  raised exception (TypeError / KeyError / AttributeError); the generator in
  `stream_provider_response` then stops after the outputs already yielded.
* `time.time()` is abstracted as one constant `now` per translation (its value
  is irrelevant to every claim) and the minted uuid response id as `rid`.
-/

namespace RevApi

/-- JSON-like values, the data model of all payloads in the gateway. Objects
are insertion-ordered key/value lists; `json.loads` produces unique keys. -/
inductive JValue where
  | null
  | bool (b : Bool)
  | num (n : Int)
  | str (s : String)
  | arr (xs : List JValue)
  | obj (kvs : List (String × JValue))

/-- Python truthiness for the embedded JSON values (`if not parsed`,
`if content`, `if usage`, ...). -/
def pyTruthy : JValue → Bool
  | .null => false
  | .bool b => b
  | .num n => !(n == 0)
  | .str s => !(s == "")
  | .arr xs => !xs.isEmpty
  | .obj kvs => !kvs.isEmpty

/-- Lookup of a string key in an (insertion-ordered) object, Python dict
`d[k]` / `d.get(k)`. Keys coming from `json.loads` are unique, so first
match is the dict entry. -/
def jlookup : List (String × JValue) → String → Option JValue
  | [], _ => none
  | (k2, v) :: t, k => if k2 == k then some v else jlookup t k

/-- Python dict assignment `d[k] = v`: overwrite in place if the key exists,
otherwise append, preserving insertion order. -/
def dictInsertJ : List (String × JValue) → String → JValue → List (String × JValue)
  | [], k, v => [(k, v)]
  | (k2, v2) :: t, k, v => if k2 == k then (k, v) :: t else (k2, v2) :: dictInsertJ t k v

/-- Python `j == lit` for a string literal: only a string compares equal. -/
def jIsStr (j : JValue) (t : String) : Bool :=
  match j with
  | .str s => s == t
  | _ => false

/-- Whitespace class of Python `str.strip` (ASCII part). -/
def pyWS (c : Char) : Bool :=
  c == ' ' || c == '\t' || c == '\n' || c == '\r' || c == Char.ofNat 11 || c == Char.ofNat 12

/-- Python `str.strip()`. -/
def pyStrip (s : String) : String :=
  ⟨((s.data.dropWhile pyWS).reverse.dropWhile pyWS).reverse⟩

/-- Python `s.startswith(p)`. -/
def startsWithStr (p s : String) : Bool := p.data.isPrefixOf s.data

/-- Python slice `s[n:]` (by characters). -/
def strDrop (n : Nat) (s : String) : String := ⟨s.data.drop n⟩

/-- Split a character list at every occurrence of a separator character. -/
def splitList (c : Char) : List Char → List (List Char)
  | [] => [[]]
  | x :: xs =>
    let r := splitList c xs
    if x == c then [] :: r
    else match r with
      | h :: t => (x :: h) :: t
      | [] => [[x]]

/-- Python `s.split(c)` for a one-character separator. -/
def splitOnChar (c : Char) (s : String) : List String :=
  (splitList c s.data).map (fun l => ⟨l⟩)

/-- Join a list of strings with a separator, Python `sep.join(parts)`. -/
def strIntercalate (sep : String) : List String → String
  | [] => ""
  | [x] => x
  | x :: xs => x ++ sep ++ strIntercalate sep xs

/-- Containment of a pattern inside a character list (Python `pat in s` for
strings, used by the `in` operator on a string operand). -/
def subList (pat : List Char) : List Char → Bool
  | [] => pat.isEmpty
  | x :: xs => pat.isPrefixOf (x :: xs) || subList pat xs

/-- Python `pat in s` for strings. -/
def strContainsSub (pat s : String) : Bool := subList pat.data s.data

/-- Python `k in d` on an arbitrary value: key membership for a dict, element
equality for a list, substring for a string, TypeError otherwise. -/
def pyContains (d : JValue) (k : String) : Except Unit Bool :=
  match d with
  | .obj kvs => .ok (jlookup kvs k).isSome
  | .arr xs => .ok (xs.any (fun v => jIsStr v k))
  | .str s => .ok (strContainsSub k s)
  | _ => .error ()

/-- Python `d.get(k, dflt)`: only dicts have `.get` (AttributeError otherwise). -/
def pyGetD (d : JValue) (k : String) (dflt : JValue) : Except Unit JValue :=
  match d with
  | .obj kvs =>
    match jlookup kvs k with
    | some v => .ok v
    | none => .ok dflt
  | _ => .error ()

/-- Python `len(x)` for sized values, TypeError otherwise. -/
def pyLen (d : JValue) : Except Unit Nat :=
  match d with
  | .str s => .ok s.data.length
  | .arr xs => .ok xs.length
  | .obj kvs => .ok kvs.length
  | _ => .error ()

/-- Python `x[0]`: head of a list, first character of a string; a dict raises
KeyError (objects here are string-keyed), other values a TypeError. -/
def pyIndex0 (d : JValue) : Except Unit JValue :=
  match d with
  | .arr (x :: _) => .ok x
  | .arr [] => .error ()
  | .str s =>
    match s.data with
    | [] => .error ()
    | c :: _ => .ok (.str ⟨[c]⟩)
  | _ => .error ()

/-- Key lookup on a value known to be used as a dict (`parsed['usage']` site);
returns `none` when the key is absent or the value is not an object. -/
def objLookup (d : JValue) (k : String) : Option JValue :=
  match d with
  | .obj kvs => jlookup kvs k
  | _ => none

/-- Key-presence test `k in pm` for an object value. -/
def objHasKey (d : JValue) (k : String) : Bool := (objLookup d k).isSome

/-!  Stream translator (provider_handler.stream_provider_response)  -/

/-- Per-translation constants: the minted response id, the caller-visible
model name, and the (abstracted) creation timestamp. -/
structure Cfg where
  rid : String
  model : String
  now : Int

/-- Mutable state of one translation: the accumulated content buffer, the last
remembered usage object (`none` is Python `None`), and the first-chunk flag. -/
structure St where
  acc : String
  usage : Option JValue
  firstSent : Bool

/-- State at the start of a translation (lines 195-197 of the source). -/
def initSt : St := ⟨"", none, false⟩

/-- How the per-line loop ended: a "finished" status broke out of it, the
input was exhausted, or a Python exception escaped the generator. -/
inductive Term where
  | finished
  | ended
  | errored

/-- One value yielded by the generator: an SSE frame `data: <json>`, the
literal `data: [DONE]` sentinel, or the aggregate dict of non-streaming mode. -/
inductive OutItem where
  | sse (payload : JValue)
  | done
  | aggregate (resp : JValue)

/-- Skeleton of a streaming chunk (lines 241-251): id, object, created, model
and a single choice holding the given delta object and a null finish_reason. -/
def baseChunk (cfg : Cfg) (delta_obj : List (String × JValue)) : List (String × JValue) :=
  [("id", .str cfg.rid),
   ("object", .str "chat.completion.chunk"),
   ("created", .num cfg.now),
   ("model", .str cfg.model),
   ("choices", .arr [.obj [("index", .num 0), ("delta", .obj delta_obj), ("finish_reason", .null)]])]

/-- Terminal chunk (lines 264-276): empty delta, stop finish_reason, plus the
remembered usage when it is truthy (`if usage:`). -/
def finalChunk (cfg : Cfg) (u : Option JValue) : List (String × JValue) :=
  [("id", .str cfg.rid),
   ("object", .str "chat.completion.chunk"),
   ("created", .num cfg.now),
   ("model", .str cfg.model),
   ("choices", .arr [.obj [("index", .num 0), ("delta", .obj []), ("finish_reason", .str "stop")]])]
  ++ (match u with
      | some v => if pyTruthy v then [("usage", v)] else []
      | none => [])

/-- Aggregate non-streaming response (lines 283-297): one message holding the
accumulated buffer, and `usage or {}`. -/
def aggDoc (cfg : Cfg) (st : St) : JValue :=
  .obj [("id", .str cfg.rid),
        ("object", .str "chat.completion"),
        ("created", .num cfg.now),
        ("model", .str cfg.model),
        ("choices", .arr [.obj [("index", .num 0),
                                ("message", .obj [("role", .str "assistant"),
                                                  ("content", .str st.acc)]),
                                ("finish_reason", .str "stop")]]),
        ("usage", match st.usage with
                  | some u => if pyTruthy u then u else .obj []
                  | none => .obj [])]

/-- parse_sse_line (lines 82-94): strip, require the `data: ` head, parse the
remainder as JSON; `none` models both the missing head and a JSON error. -/
def parse_sse_line (pj : String → Option JValue) (line : String) : Option JValue :=
  let l := pyStrip line
  if startsWithStr "data: " l then pj (strDrop 6 l) else none

/-- Combined effect of the two guards at lines 202-207: a falsy (empty) line
is skipped, an unparseable line is skipped, and a falsy parsed document
(`if not parsed`) is skipped too. Returns the document that reaches the body. -/
def effectiveDoc (pj : String → Option JValue) (line : String) : Option JValue :=
  if line == "" then none
  else
    match parse_sse_line pj line with
    | some d => if pyTruthy d then some d else none
    | none => none

/-- Body of the delta branch (lines 218-279): extract content and status,
accumulate, emit the per-event frame when streaming, handle "finished". The
returned flag is true when the loop must break. -/
def stepDelta (cfg : Cfg) (sr : Bool) (st : St) (d delta : JValue) :
    Except Unit (St × (List OutItem × Bool)) :=
  match pyGetD delta "content" (.str "") with
  | .error e => .error e
  | .ok content =>
    match pyGetD delta "status" (.str "typing") with
    | .error e => .error e
    | .ok status =>
      match (if pyTruthy content then
               match content with
               | .str s => .ok (st.acc ++ s)
               | _ => .error ()
             else .ok st.acc : Except Unit String) with
      | .error e => .error e
      | .ok acc2 =>
        let next :=
          if sr then
            let delta_obj :=
              if !st.firstSent then
                [("role", JValue.str "assistant")]
                ++ (if pyTruthy content then [("content", content)] else [])
              else [("content", content)]
            let chunk := baseChunk cfg delta_obj
            let more :=
              match objLookup d "usage" with
              | some u => (chunk ++ [("usage", u)], some u)
              | none => (chunk, st.usage)
            (⟨acc2, more.2, true⟩, [OutItem.sse (.obj more.1)])
          else (⟨acc2, st.usage, st.firstSent⟩, ([] : List OutItem))
        if jIsStr status "finished" then
          if sr then
            .ok (next.1, (next.2 ++ [OutItem.sse (.obj (finalChunk cfg next.1.usage)), OutItem.done], true))
          else .ok (next.1, (next.2, true))
        else .ok (next.1, (next.2, false))

/-- Per-document processing of the loop body (lines 209-279), after the two
skip guards: drop session-opened notifications, require a delta-shaped first
choice (line 217), and defer to `stepDelta`. -/
def stepDoc (cfg : Cfg) (sr : Bool) (st : St) (d : JValue) :
    Except Unit (St × (List OutItem × Bool)) :=
  match pyContains d "response.created" with
  | .error e => .error e
  | .ok true => .ok (st, ([], false))
  | .ok false =>
    match pyContains d "choices" with
    | .error e => .error e
    | .ok false => .ok (st, ([], false))
    | .ok true =>
      match pyGetD d "choices" (.arr []) with
      | .error e => .error e
      | .ok choices =>
        if !pyTruthy choices then .ok (st, ([], false))
        else
          match pyLen choices with
          | .error e => .error e
          | .ok n =>
            if !(decide (0 < n)) then .ok (st, ([], false))
            else
              match pyIndex0 choices with
              | .error e => .error e
              | .ok c0 =>
                match c0 with
                | .obj ckvs =>
                  match jlookup ckvs "delta" with
                  | none => .ok (st, ([], false))
                  | some delta => stepDelta cfg sr st d delta
                | _ => .ok (st, ([], false))

/-- The line loop of `stream_provider_response` over already-parsed documents. -/
def runDocs (cfg : Cfg) (sr : Bool) : List JValue → St → List OutItem × St × Term
  | [], st => ([], st, .ended)
  | d :: ds, st =>
    match stepDoc cfg sr st d with
    | .error _ => ([], st, .errored)
    | .ok (st2, (out, brk)) =>
      if brk then (out, st2, .finished)
      else
        let r := runDocs cfg sr ds st2
        (out ++ r.1, r.2.1, r.2.2)

/-- The line loop of `stream_provider_response` (lines 201-279) over the raw
upstream lines. -/
def runLines (pj : String → Option JValue) (cfg : Cfg) (sr : Bool) :
    List String → St → List OutItem × St × Term
  | [], st => ([], st, .ended)
  | l :: ls, st =>
    match effectiveDoc pj l with
    | none => runLines pj cfg sr ls st
    | some d =>
      match stepDoc cfg sr st d with
      | .error _ => ([], st, .errored)
      | .ok (st2, (out, brk)) =>
        if brk then (out, st2, .finished)
        else
          let r := runLines pj cfg sr ls st2
          (out ++ r.1, r.2.1, r.2.2)

/-- stream_provider_response (lines 189-297): run the line loop from the fresh
state and, in non-streaming mode, yield the aggregate response afterwards
(unless an exception escaped the loop). Returns the yielded items, the final
state and how the loop terminated. -/
def stream_provider_response (pj : String → Option JValue) (cfg : Cfg) (sr : Bool)
    (lines : List String) : List OutItem × St × Term :=
  let r := runLines pj cfg sr lines initSt
  if sr then r
  else
    match r.2.2 with
    | .errored => r
    | _ => (r.1 ++ [.aggregate (aggDoc cfg r.2.1)], r.2.1, r.2.2)

/-!  Canonical upstream events

The provider protocol as the spec describes it: a transcript carries
session-opened notifications and delta events. A delta event is the document
`{"choices": [{"delta": {"content": c, "status": s}}]}` optionally carrying a
top-level usage object.  Claims about whole transcripts quantify over lists of
these events (arbitrary blank, malformed and falsy lines may be interleaved:
they are absorbed by `effectiveDoc`). -/

/-- One delta event of the upstream protocol. -/
structure DeltaEv where
  content : String
  status : String
  usage : Option JValue

/-- An upstream event: a session-opened notification (with arbitrary payload)
or a delta event. -/
inductive UpEv where
  | session (v : JValue)
  | deltaE (e : DeltaEv)

/-- The JSON document of a delta event. -/
def DeltaEv.doc (e : DeltaEv) : JValue :=
  .obj ([("choices", JValue.arr [.obj [("delta", .obj [("content", .str e.content),
                                                       ("status", .str e.status)])]])]
        ++ (match e.usage with
            | some u => [("usage", u)]
            | none => []))

/-- The JSON document of an upstream event. -/
def UpEv.doc : UpEv → JValue
  | .session v => .obj [("response.created", v)]
  | .deltaE e => e.doc

/-- Is the event a session-opened notification? -/
def UpEv.isSession : UpEv → Bool
  | .session _ => true
  | .deltaE _ => false

/-- Content contributed by an event to the accumulated buffer. -/
def UpEv.contentOf : UpEv → String
  | .session _ => ""
  | .deltaE e => e.content

/-- Is the event a delta event that does not carry the finished status? -/
def UpEv.isNonFinished : UpEv → Bool
  | .session _ => true
  | .deltaE e => !(e.status == "finished")

/-- Concatenated content of a list of events, in order. -/
def evsContent : List UpEv → String
  | [] => ""
  | ev :: t => ev.contentOf ++ evsContent t

/-- Delta object of an emitted SSE frame (choices[0].delta), if any. -/
def frameDelta : OutItem → Option JValue
  | .sse (.obj kvs) =>
    match jlookup kvs "choices" with
    | some (.arr (.obj ckvs :: _)) => jlookup ckvs "delta"
    | _ => none
  | _ => none

/-- Role field of an emitted frame's delta, if any. -/
def frameRole (x : OutItem) : Option JValue :=
  match frameDelta x with
  | some (.obj dkvs) => jlookup dkvs "role"
  | _ => none

/-- Content field of an emitted frame's delta, if any. -/
def frameContent (x : OutItem) : Option JValue :=
  match frameDelta x with
  | some (.obj dkvs) => jlookup dkvs "content"
  | _ => none

/-- Finish_reason of an emitted frame (choices[0].finish_reason), if any. -/
def frameFinish : OutItem → Option JValue
  | .sse (.obj kvs) =>
    match jlookup kvs "choices" with
    | some (.arr (.obj ckvs :: _)) => jlookup ckvs "finish_reason"
    | _ => none
  | _ => none

/-- Chunk emitted for a delta event (lines 226-258): role only on the first
chunk, content when present, the event's usage appended when it carries one. -/
def evChunk (cfg : Cfg) (st : St) (e : DeltaEv) : List (String × JValue) :=
  let delta_obj :=
    if !st.firstSent then
      [("role", JValue.str "assistant")]
      ++ (if !(e.content == "") then [("content", JValue.str e.content)] else [])
    else [("content", JValue.str e.content)]
  baseChunk cfg delta_obj
  ++ (match e.usage with
      | some u => [("usage", u)]
      | none => [])

/-- State after processing a delta event: content is appended always; usage
and the first-chunk flag advance only in streaming mode (the source updates
them inside the `if stream_requested` block). -/
def evNextSt (sr : Bool) (st : St) (e : DeltaEv) : St :=
  if sr then
    ⟨st.acc ++ e.content,
     (match e.usage with
      | some u => some u
      | none => st.usage),
     true⟩
  else ⟨st.acc ++ e.content, st.usage, st.firstSent⟩

/-- Output and break flag of processing one delta event. -/
def evOut (cfg : Cfg) (sr : Bool) (st : St) (e : DeltaEv) : List OutItem × Bool :=
  if sr then
    let base := [OutItem.sse (.obj (evChunk cfg st e))]
    if e.status == "finished" then
      (base ++ [OutItem.sse (.obj (finalChunk cfg (evNextSt sr st e).usage)), OutItem.done], true)
    else (base, false)
  else ([], e.status == "finished")

/-!  Provider registry (provider_loader.py)  -/

/-- Python dict assignment for string-valued headers, as `dictInsertJ`. -/
def dictInsertStr : List (String × String) → String → String → List (String × String)
  | [], k, v => [(k, v)]
  | (k2, v2) :: t, k, v => if k2 == k then (k, v) :: t else (k2, v2) :: dictInsertStr t k v

/-- parse_headers (lines 12-30 of provider_loader.py): strip the text, drop
the first line, and fill a dict from every colon-carrying line, key and value
whitespace-stripped. -/
def parse_headers (header_text : String) : List (String × String) :=
  let ls := splitOnChar '\n' (pyStrip header_text)
  (ls.drop 1).foldl
    (fun hs line =>
      if line.data.contains ':' then
        let ps := splitOnChar ':' line
        dictInsertStr hs (pyStrip (ps.headD "")) (pyStrip (strIntercalate ":" (ps.drop 1)))
      else hs)
    []

/-- Word character of the request-line pattern (ASCII reading of a word
character class). -/
def pyWordChar (c : Char) : Bool := c.isAlphanum || c == '_'

/-- The request-line match at line 69 of provider_loader.py: a word, spaces,
a non-space path, spaces, then the literal HTTP. Returns (method, full path).
Maximal munch coincides with the backtracking semantics here because the
token classes are complements of the separator class. -/
def matchRequestLine (s : String) : Option (String × String) :=
  let l := s.data
  let w := l.takeWhile pyWordChar
  if w.isEmpty then none
  else
    let l1 := l.drop w.length
    let sp1 := l1.takeWhile pyWS
    if sp1.isEmpty then none
    else
      let l2 := l1.drop sp1.length
      let pth := l2.takeWhile (fun c => !pyWS c)
      if pth.isEmpty then none
      else
        let l3 := l2.drop pth.length
        let sp2 := l3.takeWhile pyWS
        if sp2.isEmpty then none
        else
          let l4 := l3.drop sp2.length
          if "HTTP".data.isPrefixOf l4 then some (⟨w⟩, ⟨pth⟩) else none

/-- Abstract view of the provider descriptor storage: whether the provider
directory exists, and the text of each artifact file inside it (`none` when
the file does not exist). Path joining is abstracted away. -/
structure FS where
  hasDir : String → Bool
  read : String → String → Option String

/-- The configuration dict assembled by load_provider_config; every field is
optional because each key is only set when its file exists. -/
structure ProviderConfig where
  metadata : Option JValue
  headers : Option (List (String × String))
  method : Option String
  path : Option String
  query_params : Option String
  payload_template : Option JValue
  response : Option String

/-- load_provider_config (lines 43-92 of provider_loader.py). Returns
`Except.ok none` for a missing provider directory (the Python `None`), an
`Except.error` when a present metadata/payload file holds invalid JSON
(`json.load` raises, uncaught), and otherwise the assembled config with
whichever artifacts were found. -/
def load_provider_config (fs : FS) (pj : String → Option JValue) (name : String) :
    Except Unit (Option ProviderConfig) :=
  if !fs.hasDir name then .ok none
  else
    match (match fs.read name "metadata.json" with
           | some s =>
             match pj s with
             | some j => Except.ok (some j)
             | none => Except.error ()
           | none => Except.ok none : Except Unit (Option JValue)) with
    | .error e => .error e
    | .ok metadata =>
      let hpart :=
        match fs.read name "header.txt" with
        | some txt =>
          let hs := parse_headers txt
          let firstLine := (splitOnChar '\n' txt).headD ""
          (match matchRequestLine firstLine with
           | some (m, fullPath) =>
             if fullPath.data.contains '?' then
               let ps := splitOnChar '?' fullPath
               (some hs, some m, some (ps.headD ""), some (strIntercalate "?" (ps.drop 1)))
             else (some hs, some m, some fullPath, none)
           | none => (some hs, none, none, none))
        | none => (none, none, none, none)
      match (match fs.read name "payload.json" with
             | some s =>
               match pj s with
               | some j => Except.ok (some j)
               | none => Except.error ()
             | none => Except.ok none : Except Unit (Option JValue)) with
      | .error e => .error e
      | .ok payload =>
        .ok (some ⟨metadata, hpart.1, hpart.2.1, hpart.2.2.1, hpart.2.2.2,
                   payload, fs.read name "reasponse_example.md"⟩)

/-!  Upstream client (provider_handler.make_provider_request)  -/

/-- Rendering of a value inside an f-string; the host is a plain string in
practice, other shapes are abstracted. -/
def pyStr : JValue → String
  | .null => "None"
  | .bool true => "True"
  | .bool false => "False"
  | .num n => toString n
  | .str s => s
  | .arr _ => "[...]"
  | .obj _ => "\x7b...\x7d"

/-- The single POST issued to the provider. -/
structure UpstreamRequest where
  url : String
  headers : List (String × String)
  payload : JValue
  stream : Bool
  timeoutSecs : Nat

/-- make_provider_request (lines 161-186 of provider_handler.py): a missing
metadata or headers key raises (KeyError); the header set sent is a copy of
the config's header dict, with nothing added or removed. -/
def make_provider_request (config : ProviderConfig) (payload : JValue) (stream : Bool) :
    Except Unit UpstreamRequest :=
  match config.metadata with
  | none => .error ()
  | some metadata =>
    match config.headers with
    | none => .error ()
    | some headers =>
      match metadata with
      | .obj kvs =>
        match jlookup kvs "host" with
        | none => .error ()
        | some hostV =>
          let host := pyStr hostV
          let path := config.path.getD "/api/v2/chat/completions"
          let url := "https://" ++ host ++ path
          let url :=
            match config.query_params with
            | some q => url ++ "?" ++ q
            | none => url
          .ok ⟨url, headers, payload, stream, 60⟩
      | _ => .error ()

/-!  Payload builder (provider_handler.build_provider_messages / _payload)  -/

/-- Python dict assignment `pm[k] = v` on a JSON value: only objects support
item assignment here (TypeError otherwise). -/
def objSet (j : JValue) (k : String) (v : JValue) : Except Unit JValue :=
  match j with
  | .obj kvs => .ok (.obj (dictInsertJ kvs k v))
  | _ => .error ()

/-- Instantiation of one provider message (lines 26-42): deep-copy the
template message, overwrite role and content, refresh a timestamp field with
the gapped synthetic time, and overwrite a models field with the singleton of
the template's own model when the template declares one. -/
def instantiateMsg (mt : JValue) (tmodel : Option JValue) (now : Int) (idx : Nat)
    (msg : JValue) : Except Unit JValue :=
  match pyGetD msg "role" (.str "user") with
  | .error e => .error e
  | .ok role =>
    match pyGetD msg "content" (.str "") with
    | .error e => .error e
    | .ok content =>
      match objSet mt "role" role with
      | .error e => .error e
      | .ok pm1 =>
        match objSet pm1 "content" content with
        | .error e => .error e
        | .ok pm2 =>
          match (if objHasKey pm2 "timestamp" then
                   objSet pm2 "timestamp" (.num (now + idx * 10))
                 else .ok pm2) with
          | .error e => .error e
          | .ok pm3 =>
            if objHasKey pm3 "models"
               && (match tmodel with
                   | some v => pyTruthy v
                   | none => false) then
              match tmodel with
              | some v => objSet pm3 "models" (.arr [v])
              | none => .ok pm3
            else .ok pm3

/-- The enumerate loop of build_provider_messages. -/
def buildMsgs (mt : JValue) (tmodel : Option JValue) (now : Int) :
    Nat → List JValue → Except Unit (List JValue)
  | _, [] => .ok []
  | idx, m :: ms =>
    match instantiateMsg mt tmodel now idx m with
    | .error e => .error e
    | .ok pm =>
      match buildMsgs mt tmodel now (idx + 1) ms with
      | .error e => .error e
      | .ok rest => .ok (pm :: rest)

/-- build_provider_messages (lines 14-44): pick the first example message of
the template (or an empty dict), then instantiate it once per input message. -/
def build_provider_messages (now : Int) (openai_messages : List JValue)
    (payload_template : JValue) : Except Unit (List JValue) :=
  match pyGetD payload_template "messages" (.arr [.obj []]) with
  | .error e => .error e
  | .ok m =>
    match (if pyTruthy m then pyIndex0 m else .ok (.obj []) : Except Unit JValue) with
    | .error e => .error e
    | .ok mt =>
      let tmodel :=
        match payload_template with
        | .obj kvs => jlookup kvs "model"
        | _ => none
      buildMsgs mt tmodel now 0 openai_messages

/-- Python iteration over the value bound to `messages` in the request (a
for-loop accepts lists, strings and dicts; anything else raises). -/
def pyIterate : JValue → Except Unit (List JValue)
  | .arr xs => .ok xs
  | .str s => .ok (s.data.map (fun c => .str ⟨[c]⟩))
  | .obj kvs => .ok (kvs.map (fun p => .str p.1))
  | _ => .error ()

/-- build_provider_payload (lines 47-79): replace the template's messages by
the instantiated ones, refresh a top-level timestamp, and overwrite a stream
field with the provider metadata's declared stream default (True when the
metadata does not specify one). -/
def build_provider_payload (now : Int) (openai_data : JValue)
    (config : ProviderConfig) : Except Unit JValue :=
  match config.payload_template with
  | none => .error ()
  | some tmpl =>
    match pyGetD openai_data "messages" (.arr []) with
    | .error e => .error e
    | .ok msgsV =>
      match pyIterate msgsV with
      | .error e => .error e
      | .ok msgsList =>
        match build_provider_messages now msgsList tmpl with
        | .error e => .error e
        | .ok pmsgs =>
          match objSet tmpl "messages" (.arr pmsgs) with
          | .error e => .error e
          | .ok payload1 =>
            match (if objHasKey payload1 "timestamp" then
                     objSet payload1 "timestamp" (.num now)
                   else .ok payload1) with
            | .error e => .error e
            | .ok payload2 =>
              let metadata := config.metadata.getD (.obj [])
              match pyGetD metadata "stream" (.bool true) with
              | .error e => .error e
              | .ok provider_streams =>
                if objHasKey payload2 "stream" then
                  objSet payload2 "stream" provider_streams
                else .ok payload2

/-!  Basic lemmas  -/

theorem str_append_empty (s : String) : s ++ "" = s := by
  cases s with
  | mk d =>
    show String.mk (d ++ []) = String.mk d
    rw [List.append_nil]

/-- The line loop is the document loop over the effective documents of the
lines: blank, malformed and falsy lines contribute nothing. -/
theorem runLines_eq_runDocs (pj : String → Option JValue) (cfg : Cfg) (sr : Bool)
    (lines : List String) (st : St) :
    runLines pj cfg sr lines st = runDocs cfg sr (lines.filterMap (effectiveDoc pj)) st := by
  induction lines generalizing st with
  | nil => rfl
  | cons l ls ih =>
    simp only [runLines, List.filterMap_cons]
    cases hd : effectiveDoc pj l with
    | none => simp only [ih]
    | some d =>
      simp only [runDocs]
      rcases hstep : stepDoc cfg sr st d with e | ⟨st2, out, brk⟩
      · rfl
      · cases brk with
        | true => simp
        | false => simp [ih]

/-- A session-opened notification is skipped with no output and no state
change. -/
theorem stepDoc_session (cfg : Cfg) (sr : Bool) (st : St) (v : JValue) :
    stepDoc cfg sr st (UpEv.doc (.session v)) = .ok (st, ([], false)) := rfl

/-- Processing a canonical delta event: the content is appended to the
buffer, the per-event chunk (and on "finished" the terminal chunk and the
DONE sentinel) is emitted when streaming, and usage and the first-chunk flag
advance only when streaming. -/
theorem stepDoc_deltaE (cfg : Cfg) (sr : Bool) (st : St) (e : DeltaEv) :
    stepDoc cfg sr st (UpEv.doc (.deltaE e)) = .ok (evNextSt sr st e, evOut cfg sr st e) := by
  rcases e with ⟨c, s, u⟩
  cases u with
  | none =>
    simp [UpEv.doc, DeltaEv.doc, stepDoc, stepDelta, pyContains, jlookup, pyTruthy,
          pyGetD, pyIndex0, jIsStr, objLookup, evChunk, evNextSt, evOut]
    cases sr with
    | false =>
      by_cases hs : s = "finished"
      · by_cases hc : c = "" <;> simp [hs, hc, str_append_empty, pyLen]
      · have hsb : (s == "finished") = false := beq_eq_false_iff_ne.mpr hs
        by_cases hc : c = "" <;> simp [hs, hsb, hc, str_append_empty, pyLen]
    | true =>
      by_cases hs : s = "finished"
      · by_cases hc : c = "" <;> simp [hs, hc, str_append_empty, pyLen]
      · have hsb : (s == "finished") = false := beq_eq_false_iff_ne.mpr hs
        by_cases hc : c = "" <;> simp [hs, hsb, hc, str_append_empty, pyLen]
  | some uv =>
    simp [UpEv.doc, DeltaEv.doc, stepDoc, stepDelta, pyContains, jlookup, pyTruthy,
          pyGetD, pyIndex0, jIsStr, objLookup, evChunk, evNextSt, evOut]
    cases sr with
    | false =>
      by_cases hs : s = "finished"
      · by_cases hc : c = "" <;> simp [hs, hc, str_append_empty, pyLen]
      · have hsb : (s == "finished") = false := beq_eq_false_iff_ne.mpr hs
        by_cases hc : c = "" <;> simp [hs, hsb, hc, str_append_empty, pyLen]
    | true =>
      by_cases hs : s = "finished"
      · by_cases hc : c = "" <;> simp [hs, hc, str_append_empty, pyLen]
      · have hsb : (s == "finished") = false := beq_eq_false_iff_ne.mpr hs
        by_cases hc : c = "" <;> simp [hs, hsb, hc, str_append_empty, pyLen]

theorem str_append_assoc (a b c : String) : (a ++ b) ++ c = a ++ (b ++ c) := by
  cases a with
  | mk da =>
    cases b with
    | mk db =>
      cases c with
      | mk dc =>
        show String.mk ((da ++ db) ++ dc) = String.mk (da ++ (db ++ dc))
        rw [List.append_assoc]

/-- Leading session-opened notifications are consumed with no effect. -/
theorem runDocs_sessions (cfg : Cfg) (sr : Bool) (pre : List UpEv)
    (hpre : pre.all UpEv.isSession = true) (ds : List JValue) (st : St) :
    runDocs cfg sr (pre.map UpEv.doc ++ ds) st = runDocs cfg sr ds st := by
  induction pre with
  | nil => rfl
  | cons ev t ih =>
    simp only [List.all_cons, Bool.and_eq_true] at hpre
    cases ev with
    | session v =>
      simp only [List.map_cons, List.cons_append, runDocs, stepDoc_session]
      simp [ih hpre.2]
    | deltaE e => simp [UpEv.isSession] at hpre

/-- In non-streaming mode a run over delta events that never reach the
finished status emits nothing and only appends their content to the buffer. -/
theorem runDocs_nonfin_nostream (cfg : Cfg) (evs : List UpEv)
    (hevs : evs.all UpEv.isNonFinished = true) (st : St) :
    runDocs cfg false (evs.map UpEv.doc) st
      = ([], ⟨st.acc ++ evsContent evs, st.usage, st.firstSent⟩, .ended) := by
  induction evs generalizing st with
  | nil => simp [runDocs, evsContent, str_append_empty]
  | cons ev t ih =>
    simp only [List.all_cons, Bool.and_eq_true] at hevs
    cases ev with
    | session v =>
      simp only [List.map_cons, runDocs, stepDoc_session]
      simp [ih hevs.2, evsContent, UpEv.contentOf]
    | deltaE e =>
      have hs : (e.status == "finished") = false := by
        simpa [UpEv.isNonFinished] using hevs.1
      simp only [List.map_cons, runDocs, stepDoc_deltaE]
      simp [evOut, evNextSt, hs, ih hevs.2, evsContent, UpEv.contentOf, str_append_assoc]

/-- Once the document loop has terminated through a finished status, any
further input is discarded: appending more documents changes nothing. -/
theorem runDocs_finished_append (cfg : Cfg) (sr : Bool) (ds : List JValue) (st : St)
    (h : (runDocs cfg sr ds st).2.2 = .finished) (es : List JValue) :
    runDocs cfg sr (ds ++ es) st = runDocs cfg sr ds st := by
  induction ds generalizing st with
  | nil => simp [runDocs] at h
  | cons d t ih =>
    simp only [List.cons_append, runDocs] at h ⊢
    rcases hstep : stepDoc cfg sr st d with e | ⟨st2, out, brk⟩
    · rw [hstep] at h
    · rw [hstep] at h
      cases brk with
      | true => rfl
      | false =>
        simp at h
        simp [ih st2 h]

/-- Inserting a document that every state ignores leaves a run unchanged. -/
theorem runDocs_noop_insert (cfg : Cfg) (sr : Bool) (d : JValue)
    (hno : ∀ st, stepDoc cfg sr st d = .ok (st, ([], false)))
    (xs ys : List JValue) (st : St) :
    runDocs cfg sr (xs ++ d :: ys) st = runDocs cfg sr (xs ++ ys) st := by
  induction xs generalizing st with
  | nil =>
    simp only [List.nil_append, runDocs, hno]
    simp
  | cons x t ih =>
    simp only [List.cons_append, runDocs]
    rcases hstep : stepDoc cfg sr st x with e | ⟨st2, out, brk⟩
    · rfl
    · cases brk with
      | true => rfl
      | false => simp [ih]

/-!  Frame shape facts  -/

theorem frameFinish_evChunk (cfg : Cfg) (st : St) (e : DeltaEv) :
    frameFinish (.sse (.obj (evChunk cfg st e))) = some .null := by
  rcases e with ⟨c, s, u⟩
  cases u <;> rfl

theorem frameFinish_finalChunk (cfg : Cfg) (u : Option JValue) :
    frameFinish (.sse (.obj (finalChunk cfg u))) = some (.str "stop") := by
  cases u <;> rfl

theorem frameRole_finalChunk (cfg : Cfg) (u : Option JValue) :
    frameRole (.sse (.obj (finalChunk cfg u))) = none := by
  cases u <;> rfl

theorem frameRole_evChunk_sent (cfg : Cfg) (st : St) (e : DeltaEv)
    (h : st.firstSent = true) :
    frameRole (.sse (.obj (evChunk cfg st e))) = none := by
  rcases e with ⟨c, s, u⟩
  simp only [evChunk, h]
  cases u <;> rfl

theorem frameDelta_evChunk_sent (cfg : Cfg) (st : St) (e : DeltaEv)
    (h : st.firstSent = true) :
    frameDelta (.sse (.obj (evChunk cfg st e))) = some (.obj [("content", .str e.content)]) := by
  rcases e with ⟨c, s, u⟩
  simp only [evChunk, h]
  cases u <;> rfl

theorem frameRole_evChunk_first (cfg : Cfg) (st : St) (e : DeltaEv)
    (h : st.firstSent = false) :
    frameRole (.sse (.obj (evChunk cfg st e))) = some (.str "assistant") := by
  rcases e with ⟨c, s, u⟩
  simp only [evChunk, h]
  cases u <;> rfl

theorem frameContent_evChunk_first (cfg : Cfg) (st : St) (e : DeltaEv)
    (h : st.firstSent = false) :
    frameContent (.sse (.obj (evChunk cfg st e)))
      = (if e.content ≠ "" then some (.str e.content) else none) := by
  rcases e with ⟨c, s, u⟩
  by_cases hc : c = ""
  · simp only [evChunk, h, hc]
    cases u <;> rfl
  · have hcb : (c == "") = false := beq_eq_false_iff_ne.mpr hc
    simp only [evChunk, h, hcb, Bool.not_false, if_true]
    cases u <;> simp [hc, frameContent, frameDelta, baseChunk, jlookup]

/-- Output of a streaming step on a finished delta event: the per-event chunk,
the terminal chunk, the DONE sentinel, and the break flag. -/
theorem evOut_finished (cfg : Cfg) (st : St) (e : DeltaEv) (hs : e.status = "finished") :
    evOut cfg true st e
      = ([OutItem.sse (.obj (evChunk cfg st e)),
          OutItem.sse (.obj (finalChunk cfg (evNextSt true st e).usage)),
          OutItem.done], true) := by
  simp [evOut, hs]

/-- Output of a streaming step on a non-finished delta event: one chunk, no
break. -/
theorem evOut_typing (cfg : Cfg) (st : St) (e : DeltaEv)
    (hs : (e.status == "finished") = false) :
    evOut cfg true st e = ([OutItem.sse (.obj (evChunk cfg st e))], false) := by
  simp [evOut, hs]

/-- A non-streaming step on a delta event emits nothing; the break flag is the
finished test. -/
theorem evOut_nostream (cfg : Cfg) (st : St) (e : DeltaEv) :
    evOut cfg false st e = ([], e.status == "finished") := by
  simp [evOut]

/-- After the first chunk has been sent, every frame a streaming run emits is
role-free, and every non-terminal frame carries a content-only delta. -/
theorem runDocs_norole (cfg : Cfg) (evs : List UpEv) (st : St)
    (hst : st.firstSent = true) :
    ∀ x ∈ (runDocs cfg true (evs.map UpEv.doc) st).1,
      frameRole x = none
      ∧ (frameFinish x = some .null → ∃ cv, frameDelta x = some (.obj [("content", cv)])) := by
  induction evs generalizing st with
  | nil => simp [runDocs]
  | cons ev t ih =>
    cases ev with
    | session v =>
      simp only [List.map_cons, runDocs, stepDoc_session]
      simpa using ih st hst
    | deltaE e =>
      have hnext : (evNextSt true st e).firstSent = true := by simp [evNextSt]
      by_cases hs : e.status = "finished"
      · simp only [List.map_cons, runDocs, stepDoc_deltaE, evOut_finished cfg st e hs]
        simp only [if_true]
        intro x hx
        simp only [List.mem_cons, List.not_mem_nil, or_false] at hx
        rcases hx with hx | hx | hx
        · subst hx
          refine ⟨frameRole_evChunk_sent cfg st e hst, ?_⟩
          intro _
          exact ⟨.str e.content, frameDelta_evChunk_sent cfg st e hst⟩
        · subst hx
          refine ⟨frameRole_finalChunk cfg _, ?_⟩
          intro hfin
          rw [frameFinish_finalChunk] at hfin
          simp at hfin
        · subst hx
          exact ⟨rfl, by intro hfin; simp [frameFinish] at hfin⟩
      · have hsb : (e.status == "finished") = false := beq_eq_false_iff_ne.mpr hs
        simp only [List.map_cons, runDocs, stepDoc_deltaE, evOut_typing cfg st e hsb]
        simp only [Bool.false_eq_true, if_false]
        intro x hx
        simp only [List.cons_append, List.nil_append, List.mem_cons] at hx
        rcases hx with hx | hx
        · subst hx
          refine ⟨frameRole_evChunk_sent cfg st e hst, ?_⟩
          intro _
          exact ⟨.str e.content, frameDelta_evChunk_sent cfg st e hst⟩
        · exact ih (evNextSt true st e) hnext x hx

/-- A streaming run over non-finished events ends by exhaustion and emits only
non-terminal frames: no DONE sentinel, no stop finish_reason, no aggregate. -/
theorem runDocs_nonfin_stream (cfg : Cfg) (evs : List UpEv)
    (hevs : evs.all UpEv.isNonFinished = true) (st : St) :
    (runDocs cfg true (evs.map UpEv.doc) st).2.2 = Term.ended
    ∧ ∀ x ∈ (runDocs cfg true (evs.map UpEv.doc) st).1,
        frameFinish x = some .null ∧ x ≠ OutItem.done ∧ ∀ j, x ≠ OutItem.aggregate j := by
  induction evs generalizing st with
  | nil => simp [runDocs]
  | cons ev t ih =>
    simp only [List.all_cons, Bool.and_eq_true] at hevs
    cases ev with
    | session v =>
      simp only [List.map_cons, runDocs, stepDoc_session]
      simpa using ih hevs.2 st
    | deltaE e =>
      have hsb : (e.status == "finished") = false := by
        simpa [UpEv.isNonFinished] using hevs.1
      simp only [List.map_cons, runDocs, stepDoc_deltaE, evOut_typing cfg st e hsb]
      simp only [Bool.false_eq_true, if_false]
      refine ⟨(ih hevs.2 (evNextSt true st e)).1, ?_⟩
      intro x hx
      simp only [List.cons_append, List.nil_append, List.mem_cons] at hx
      rcases hx with hx | hx
      · subst hx
        exact ⟨frameFinish_evChunk cfg st e, by simp, by simp⟩
      · exact (ih hevs.2 (evNextSt true st e)).2 x hx

/-- A streaming run over non-finished events capped by a finished event emits
a list of non-terminal frames, then exactly the terminal chunk and DONE, and
terminates the loop through the finished status. -/
theorem runDocs_stream_capped (cfg : Cfg) (pre : List UpEv) (f : DeltaEv)
    (hpre : pre.all UpEv.isNonFinished = true) (hf : f.status = "finished") (st : St) :
    ∃ frames u st2,
      runDocs cfg true ((pre ++ [UpEv.deltaE f]).map UpEv.doc) st
        = (frames ++ [OutItem.sse (.obj (finalChunk cfg u)), OutItem.done], st2, .finished)
      ∧ ∀ x ∈ frames, frameFinish x = some .null ∧ x ≠ OutItem.done := by
  induction pre generalizing st with
  | nil =>
    refine ⟨[OutItem.sse (.obj (evChunk cfg st f))], (evNextSt true st f).usage,
            evNextSt true st f, ?_, ?_⟩
    · simp only [List.nil_append, List.map_cons, List.map_nil, runDocs, stepDoc_deltaE,
                 evOut_finished cfg st f hf]
      simp
    · intro x hx
      simp only [List.mem_singleton] at hx
      subst hx
      exact ⟨frameFinish_evChunk cfg st f, by simp⟩
  | cons ev t ih =>
    simp only [List.all_cons, Bool.and_eq_true] at hpre
    cases ev with
    | session v =>
      simp only [List.cons_append, List.map_cons, runDocs, stepDoc_session]
      obtain ⟨frames, u, st2, heq, hfr⟩ := ih hpre.2 st
      refine ⟨frames, u, st2, ?_, hfr⟩
      simp only [List.map_append, List.map_cons, List.map_nil] at heq
      simp [heq]
    | deltaE e =>
      have hsb : (e.status == "finished") = false := by
        simpa [UpEv.isNonFinished] using hpre.1
      obtain ⟨frames, u, st2, heq, hfr⟩ := ih hpre.2 (evNextSt true st e)
      refine ⟨OutItem.sse (.obj (evChunk cfg st e)) :: frames, u, st2, ?_, ?_⟩
      · simp only [List.cons_append, List.map_cons, runDocs, stepDoc_deltaE,
                   evOut_typing cfg st e hsb]
        simp only [List.map_append, List.map_cons, List.map_nil] at heq
        simp [heq]
      · intro x hx
        rcases List.mem_cons.mp hx with hx | hx
        · subst hx
          exact ⟨frameFinish_evChunk cfg st e, by simp⟩
        · exact hfr x hx

/-- From a fresh-flag state, a streaming run whose first delta event is e
opens with the chunk of e, and every later emitted frame is role-free with a
content-only delta when non-terminal. -/
theorem runDocs_first_role (cfg : Cfg) (e : DeltaEv) (rest : List UpEv) (st : St) :
    ∃ tl,
      (runDocs cfg true ((UpEv.deltaE e :: rest).map UpEv.doc) st).1
        = OutItem.sse (.obj (evChunk cfg st e)) :: tl
      ∧ ∀ x ∈ tl, frameRole x = none
          ∧ (frameFinish x = some .null → ∃ cv, frameDelta x = some (.obj [("content", cv)])) := by
  by_cases hs : e.status = "finished"
  · refine ⟨[OutItem.sse (.obj (finalChunk cfg (evNextSt true st e).usage)), OutItem.done],
            ?_, ?_⟩
    · simp only [List.map_cons, runDocs, stepDoc_deltaE, evOut_finished cfg st e hs]
      simp
    · intro x hx
      simp only [List.mem_cons, List.not_mem_nil, or_false] at hx
      rcases hx with hx | hx
      · subst hx
        refine ⟨frameRole_finalChunk cfg _, ?_⟩
        intro hfin
        rw [frameFinish_finalChunk] at hfin
        simp at hfin
      · subst hx
        exact ⟨rfl, by intro hfin; simp [frameFinish] at hfin⟩
  · have hsb : (e.status == "finished") = false := beq_eq_false_iff_ne.mpr hs
    refine ⟨(runDocs cfg true (rest.map UpEv.doc) (evNextSt true st e)).1, ?_, ?_⟩
    · simp only [List.map_cons, runDocs, stepDoc_deltaE, evOut_typing cfg st e hsb]
      simp
    · exact runDocs_norole cfg rest (evNextSt true st e) (by simp [evNextSt])

/-- Concatenation of a list of strings, in order. -/
def strConcat : List String → String
  | [] => ""
  | s :: t => s ++ strConcat t

theorem evsContent_deltas (ks : List DeltaEv) :
    evsContent (ks.map UpEv.deltaE) = strConcat (ks.map DeltaEv.content) := by
  induction ks with
  | nil => rfl
  | cons e t ih => simp [evsContent, UpEv.contentOf, strConcat, ih]

theorem frameDelta_finalChunk (cfg : Cfg) (u : Option JValue) :
    frameDelta (.sse (.obj (finalChunk cfg u))) = some (.obj []) := by
  cases u <;> rfl

/-- Sequencing: when a run over the first block ends by exhaustion, a run over
the concatenation continues into the second block from the reached state. -/
theorem runDocs_append_ended (cfg : Cfg) (sr : Bool) (as bs : List JValue) (st : St)
    (h : (runDocs cfg sr as st).2.2 = .ended) :
    runDocs cfg sr (as ++ bs) st
      = ((runDocs cfg sr as st).1 ++ (runDocs cfg sr bs (runDocs cfg sr as st).2.1).1,
         (runDocs cfg sr bs (runDocs cfg sr as st).2.1).2) := by
  induction as generalizing st with
  | nil => simp [runDocs]
  | cons a t ih =>
    simp only [List.cons_append, runDocs] at h ⊢
    rcases hstep : stepDoc cfg sr st a with e | ⟨st2, out, brk⟩
    · rw [hstep] at h
      simp at h
    · rw [hstep] at h
      cases brk with
      | true => simp at h
      | false =>
        simp at h
        simp [ih st2 h, List.append_assoc]

/-!  Claim C1  -/

/-- C1: a non-streaming translation of a transcript holding k content-bearing
delta events followed by a finished event yields exactly one aggregate
chat.completion item whose message content is the in-order concatenation of
the events' content fields (see `aggDoc`: the buffer of the final state is
the message content). -/
theorem c1_nonstream_concat (pj : String → Option JValue) (cfg : Cfg)
    (lines : List String) (ks : List DeltaEv) (f : DeltaEv)
    (hks : ks.all (fun e => !(e.content == "") && !(e.status == "finished")) = true)
    (hf : f.status = "finished") (hfc : f.content = "")
    (h : lines.filterMap (effectiveDoc pj)
           = ((ks.map UpEv.deltaE) ++ [UpEv.deltaE f]).map UpEv.doc) :
    stream_provider_response pj cfg false lines
      = ([OutItem.aggregate (aggDoc cfg ⟨strConcat (ks.map DeltaEv.content), none, false⟩)],
         (⟨strConcat (ks.map DeltaEv.content), none, false⟩ : St), Term.finished) := by
  have hks2 : (ks.map UpEv.deltaE).all UpEv.isNonFinished = true := by
    refine List.all_eq_true.mpr (fun ev hev => ?_)
    rw [List.mem_map] at hev
    obtain ⟨e, he, rfl⟩ := hev
    have h2 := List.all_eq_true.mp hks e he
    simp only [Bool.and_eq_true] at h2
    simpa [UpEv.isNonFinished] using h2.2
  have hpre : runDocs cfg false ((ks.map UpEv.deltaE).map UpEv.doc) initSt
      = ([], ⟨strConcat (ks.map DeltaEv.content), none, false⟩, .ended) := by
    have h2 := runDocs_nonfin_nostream cfg (ks.map UpEv.deltaE) hks2 initSt
    rw [evsContent_deltas] at h2
    exact h2
  have hstepf : runDocs cfg false [UpEv.doc (UpEv.deltaE f)]
      (⟨strConcat (ks.map DeltaEv.content), none, false⟩ : St)
      = ([], (⟨strConcat (ks.map DeltaEv.content), none, false⟩ : St), .finished) := by
    simp only [runDocs, stepDoc_deltaE, evOut_nostream, hf]
    simp [evNextSt, hfc, str_append_empty]
  have hrl : runLines pj cfg false lines initSt
      = ([], (⟨strConcat (ks.map DeltaEv.content), none, false⟩ : St), .finished) := by
    rw [runLines_eq_runDocs, h, List.map_append]
    rw [runDocs_append_ended cfg false _ _ initSt (by rw [hpre])]
    rw [hpre]
    simp [hstepf]
  simp only [stream_provider_response, hrl]
  rfl

def cfgW : Cfg := ⟨"resp-id", "model-x", 0⟩

def pjC1 : String → Option JValue := fun s =>
  if s == "e1" then some (DeltaEv.doc ⟨"Hel", "typing", none⟩)
  else if s == "e2" then some (DeltaEv.doc ⟨"lo", "typing", none⟩)
  else if s == "fin" then some (DeltaEv.doc ⟨"", "finished", none⟩)
  else none

theorem c1_nonstream_concat_witness :
    ([⟨"Hel", "typing", none⟩, ⟨"lo", "typing", none⟩] : List DeltaEv).all
        (fun e => !(e.content == "") && !(e.status == "finished")) = true
    ∧ (⟨"", "finished", none⟩ : DeltaEv).status = "finished"
    ∧ (⟨"", "finished", none⟩ : DeltaEv).content = ""
    ∧ (["data: e1", "data: e2", "data: fin"].filterMap (effectiveDoc pjC1)
         = ((([⟨"Hel", "typing", none⟩, ⟨"lo", "typing", none⟩] : List DeltaEv).map UpEv.deltaE)
             ++ [UpEv.deltaE ⟨"", "finished", none⟩]).map UpEv.doc)
    ∧ stream_provider_response pjC1 cfgW false ["data: e1", "data: e2", "data: fin"]
        = ([OutItem.aggregate (aggDoc cfgW
              ⟨strConcat (([⟨"Hel", "typing", none⟩, ⟨"lo", "typing", none⟩] : List DeltaEv).map
                  DeltaEv.content), none, false⟩)],
           (⟨strConcat (([⟨"Hel", "typing", none⟩, ⟨"lo", "typing", none⟩] : List DeltaEv).map
                DeltaEv.content), none, false⟩ : St), Term.finished) :=
  ⟨rfl, rfl, rfl, rfl,
   c1_nonstream_concat pjC1 cfgW ["data: e1", "data: e2", "data: fin"]
     [⟨"Hel", "typing", none⟩, ⟨"lo", "typing", none⟩] ⟨"", "finished", none⟩
     rfl rfl rfl rfl⟩

/-!  Claim C4  -/

/-- C4: a line that lacks the SSE data head after stripping, or whose payload
after the head fails to parse, is silently dropped: the translation of any
transcript with such a line inserted anywhere equals (outputs, final buffer
state and termination alike) the translation without it, in both modes. -/
theorem c4_malformed_line_dropped (pj : String → Option JValue) (cfg : Cfg) (sr : Bool)
    (xs ys : List String) (m : String)
    (hm : startsWithStr "data: " (pyStrip m) = false ∨ pj (strDrop 6 (pyStrip m)) = none) :
    stream_provider_response pj cfg sr (xs ++ m :: ys)
      = stream_provider_response pj cfg sr (xs ++ ys) := by
  have hdoc : effectiveDoc pj m = none := by
    by_cases hempty : m = ""
    · simp [effectiveDoc, hempty]
    · have hne : (m == "") = false := beq_eq_false_iff_ne.mpr hempty
      rcases hm with hm | hm
      · simp [effectiveDoc, parse_sse_line, hne, hm]
      · cases hsw : startsWithStr "data: " (pyStrip m) <;>
          simp [effectiveDoc, parse_sse_line, hne, hsw, hm]
  have hruns : runLines pj cfg sr (xs ++ m :: ys) initSt
      = runLines pj cfg sr (xs ++ ys) initSt := by
    rw [runLines_eq_runDocs, runLines_eq_runDocs, List.filterMap_append,
        List.filterMap_append, List.filterMap_cons, hdoc]
  simp only [stream_provider_response, hruns]

def pjC4 : String → Option JValue := fun s =>
  if s == "ok" then some (DeltaEv.doc ⟨"A", "typing", none⟩) else none

theorem c4_malformed_line_dropped_witness :
    (startsWithStr "data: " (pyStrip "garbage line") = false
       ∨ pjC4 (strDrop 6 (pyStrip "garbage line")) = none)
    ∧ stream_provider_response pjC4 cfgW true (["data: ok"] ++ "garbage line" :: ["data: ok"])
        = stream_provider_response pjC4 cfgW true (["data: ok"] ++ ["data: ok"]) :=
  ⟨Or.inl rfl,
   c4_malformed_line_dropped pjC4 cfgW true ["data: ok"] ["data: ok"] "garbage line"
     (Or.inl rfl)⟩

/-!  Claim C2  -/

/-- C2: in a streaming translation whose transcript opens with session-opened
notifications and then a first delta event, the first emitted frame is the
chunk of that event; its delta carries role "assistant" and the event's
content exactly when that content is non-empty, and every later emitted frame
is role-free, with a content-only delta whenever it is non-terminal. -/
theorem c2_role_only_first (pj : String → Option JValue) (cfg : Cfg) (lines : List String)
    (pre : List UpEv) (e : DeltaEv) (rest : List UpEv)
    (hpre : pre.all UpEv.isSession = true)
    (h : lines.filterMap (effectiveDoc pj) = (pre ++ UpEv.deltaE e :: rest).map UpEv.doc) :
    ∃ tl,
      (stream_provider_response pj cfg true lines).1
        = OutItem.sse (.obj (evChunk cfg initSt e)) :: tl
      ∧ frameRole (OutItem.sse (.obj (evChunk cfg initSt e))) = some (.str "assistant")
      ∧ frameContent (OutItem.sse (.obj (evChunk cfg initSt e)))
          = (if e.content ≠ "" then some (.str e.content) else none)
      ∧ ∀ x ∈ tl, frameRole x = none
          ∧ (frameFinish x = some .null → ∃ cv, frameDelta x = some (.obj [("content", cv)])) := by
  have hmain : (stream_provider_response pj cfg true lines).1
      = (runDocs cfg true ((UpEv.deltaE e :: rest).map UpEv.doc) initSt).1 := by
    show (runLines pj cfg true lines initSt).1 = _
    rw [runLines_eq_runDocs, h, List.map_append, runDocs_sessions cfg true pre hpre]
  obtain ⟨tl, heq, htl⟩ := runDocs_first_role cfg e rest initSt
  rw [heq] at hmain
  exact ⟨tl, hmain, frameRole_evChunk_first cfg initSt e rfl,
         frameContent_evChunk_first cfg initSt e rfl, htl⟩

def pjC2 : String → Option JValue := fun s =>
  if s == "sess" then some (UpEv.doc (.session (.obj [("ok", .bool true)])))
  else if s == "hi" then some (DeltaEv.doc ⟨"Hi", "typing", none⟩)
  else if s == "end" then some (DeltaEv.doc ⟨"!", "finished", none⟩)
  else none

theorem c2_role_only_first_witness :
    ([UpEv.session (.obj [("ok", .bool true)])].all UpEv.isSession = true)
    ∧ (["data: sess", "data: hi", "data: end"].filterMap (effectiveDoc pjC2)
         = ([UpEv.session (.obj [("ok", .bool true)])]
             ++ UpEv.deltaE ⟨"Hi", "typing", none⟩ :: [UpEv.deltaE ⟨"!", "finished", none⟩]).map
             UpEv.doc)
    ∧ ∃ tl,
        (stream_provider_response pjC2 cfgW true ["data: sess", "data: hi", "data: end"]).1
          = OutItem.sse (.obj (evChunk cfgW initSt ⟨"Hi", "typing", none⟩)) :: tl
        ∧ frameRole (OutItem.sse (.obj (evChunk cfgW initSt ⟨"Hi", "typing", none⟩)))
            = some (.str "assistant")
        ∧ frameContent (OutItem.sse (.obj (evChunk cfgW initSt ⟨"Hi", "typing", none⟩)))
            = (if ("Hi" : String) ≠ "" then some (.str "Hi") else none)
        ∧ ∀ x ∈ tl, frameRole x = none
            ∧ (frameFinish x = some .null → ∃ cv, frameDelta x = some (.obj [("content", cv)])) :=
  ⟨rfl, rfl,
   c2_role_only_first pjC2 cfgW ["data: sess", "data: hi", "data: end"]
     [UpEv.session (.obj [("ok", .bool true)])] ⟨"Hi", "typing", none⟩
     [UpEv.deltaE ⟨"!", "finished", none⟩] rfl rfl⟩

/-!  Claim C3  -/

/-- C3: when a streaming transcript reaches a finished delta event, the
emitted sequence ends with exactly one terminal frame (empty delta, stop
finish_reason) followed immediately by the DONE sentinel and nothing after
it, every earlier frame being non-terminal; and all input lines after the
finished event are discarded: they change neither the outputs nor the state. -/
theorem c3_terminal_done_discard (pj : String → Option JValue) (cfg : Cfg)
    (xs ys : List String) (pre : List UpEv) (f : DeltaEv)
    (hpre : pre.all UpEv.isNonFinished = true)
    (hf : f.status = "finished")
    (h : xs.filterMap (effectiveDoc pj) = (pre ++ [UpEv.deltaE f]).map UpEv.doc) :
    stream_provider_response pj cfg true (xs ++ ys) = stream_provider_response pj cfg true xs
    ∧ ∃ frames u st2,
        stream_provider_response pj cfg true xs
          = (frames ++ [OutItem.sse (.obj (finalChunk cfg u)), OutItem.done], st2, .finished)
        ∧ frameDelta (OutItem.sse (.obj (finalChunk cfg u))) = some (.obj [])
        ∧ frameFinish (OutItem.sse (.obj (finalChunk cfg u))) = some (.str "stop")
        ∧ ∀ x ∈ frames, frameFinish x = some .null ∧ x ≠ OutItem.done := by
  obtain ⟨frames, u, st2, heq, hfr⟩ := runDocs_stream_capped cfg pre f hpre hf initSt
  have hxs : stream_provider_response pj cfg true xs
      = (frames ++ [OutItem.sse (.obj (finalChunk cfg u)), OutItem.done], st2, .finished) := by
    show runLines pj cfg true xs initSt = _
    rw [runLines_eq_runDocs, h, heq]
  refine ⟨?_, frames, u, st2, hxs, frameDelta_finalChunk cfg u,
          frameFinish_finalChunk cfg u, hfr⟩
  show runLines pj cfg true (xs ++ ys) initSt = runLines pj cfg true xs initSt
  rw [runLines_eq_runDocs, runLines_eq_runDocs, List.filterMap_append, h]
  apply runDocs_finished_append
  rw [heq]

def pjC3 : String → Option JValue := fun s =>
  if s == "w1" then some (DeltaEv.doc ⟨"Hel", "typing", none⟩)
  else if s == "w2" then some (DeltaEv.doc ⟨"lo", "finished", none⟩)
  else if s == "late" then some (DeltaEv.doc ⟨"IGNORED", "typing", none⟩)
  else none

theorem c3_terminal_done_discard_witness :
    ([UpEv.deltaE ⟨"Hel", "typing", none⟩].all UpEv.isNonFinished = true)
    ∧ (⟨"lo", "finished", none⟩ : DeltaEv).status = "finished"
    ∧ (["data: w1", "data: w2"].filterMap (effectiveDoc pjC3)
         = ([UpEv.deltaE ⟨"Hel", "typing", none⟩]
             ++ [UpEv.deltaE ⟨"lo", "finished", none⟩]).map UpEv.doc)
    ∧ stream_provider_response pjC3 cfgW true (["data: w1", "data: w2"] ++ ["data: late"])
        = stream_provider_response pjC3 cfgW true ["data: w1", "data: w2"]
    ∧ ∃ frames u st2,
        stream_provider_response pjC3 cfgW true ["data: w1", "data: w2"]
          = (frames ++ [OutItem.sse (.obj (finalChunk cfgW u)), OutItem.done], st2, .finished)
        ∧ frameDelta (OutItem.sse (.obj (finalChunk cfgW u))) = some (.obj [])
        ∧ frameFinish (OutItem.sse (.obj (finalChunk cfgW u))) = some (.str "stop")
        ∧ ∀ x ∈ frames, frameFinish x = some .null ∧ x ≠ OutItem.done :=
  ⟨rfl, rfl, rfl,
   (c3_terminal_done_discard pjC3 cfgW ["data: w1", "data: w2"] ["data: late"]
      [UpEv.deltaE ⟨"Hel", "typing", none⟩] ⟨"lo", "finished", none⟩ rfl rfl rfl).1,
   (c3_terminal_done_discard pjC3 cfgW ["data: w1", "data: w2"] ["data: late"]
      [UpEv.deltaE ⟨"Hel", "typing", none⟩] ⟨"lo", "finished", none⟩ rfl rfl rfl).2⟩

/-!  Claim C5  -/

/-- C5 counterexample: the upstream closes with no finished event (here: the
empty transcript); the streaming translator terminates but emits no items at
all, so the caller receives no terminal frame, contradicting the claim. -/
theorem c5_counterexample :
    (stream_provider_response (fun _ => none) cfgW true []).1 = []
    ∧ (stream_provider_response (fun _ => none) cfgW true []).2.2 = Term.ended
    ∧ ¬ ∃ x, x ∈ (stream_provider_response (fun _ => none) cfgW true []).1
          ∧ frameFinish x = some (.str "stop") := by
  refine ⟨rfl, rfl, ?_⟩
  rintro ⟨x, hx, _⟩
  have h0 : (stream_provider_response (fun _ => none) cfgW true []).1 = [] := rfl
  rw [h0] at hx
  exact List.not_mem_nil x hx

/-- C5 amended: on a transcript with no finished event the translator still
terminates; in non-streaming mode it emits the aggregate response carrying
the accumulated buffer, but in streaming mode it emits no terminal frame at
all (no stop finish_reason, no DONE): the stream simply ends. -/
theorem c5_flush_behaviour (pj : String → Option JValue) (cfg : Cfg) (lines : List String)
    (evs : List UpEv) (hevs : evs.all UpEv.isNonFinished = true)
    (h : lines.filterMap (effectiveDoc pj) = evs.map UpEv.doc) :
    stream_provider_response pj cfg false lines
      = ([OutItem.aggregate (aggDoc cfg ⟨evsContent evs, none, false⟩)],
         (⟨evsContent evs, none, false⟩ : St), Term.ended)
    ∧ (stream_provider_response pj cfg true lines).2.2 = Term.ended
    ∧ ∀ x ∈ (stream_provider_response pj cfg true lines).1,
        frameFinish x = some .null ∧ x ≠ OutItem.done ∧ ∀ j, x ≠ OutItem.aggregate j := by
  have hrl : runLines pj cfg false lines initSt
      = ([], (⟨evsContent evs, none, false⟩ : St), .ended) := by
    rw [runLines_eq_runDocs, h]
    exact runDocs_nonfin_nostream cfg evs hevs initSt
  have hstream : stream_provider_response pj cfg true lines
      = runDocs cfg true (evs.map UpEv.doc) initSt := by
    show runLines pj cfg true lines initSt = _
    rw [runLines_eq_runDocs, h]
  refine ⟨?_, ?_, ?_⟩
  · simp only [stream_provider_response, hrl]
    rfl
  · rw [hstream]
    exact (runDocs_nonfin_stream cfg evs hevs initSt).1
  · rw [hstream]
    exact (runDocs_nonfin_stream cfg evs hevs initSt).2

def pjC5 : String → Option JValue := fun s =>
  if s == "sess" then some (UpEv.doc (.session (.obj [("ok", .bool true)])))
  else if s == "hi" then some (DeltaEv.doc ⟨"hi", "typing", none⟩)
  else none

theorem c5_flush_behaviour_witness :
    ([UpEv.session (.obj [("ok", .bool true)]), UpEv.deltaE ⟨"hi", "typing", none⟩].all
        UpEv.isNonFinished = true)
    ∧ (["data: sess", "data: hi"].filterMap (effectiveDoc pjC5)
         = [UpEv.session (.obj [("ok", .bool true)]), UpEv.deltaE ⟨"hi", "typing", none⟩].map
             UpEv.doc)
    ∧ stream_provider_response pjC5 cfgW false ["data: sess", "data: hi"]
        = ([OutItem.aggregate (aggDoc cfgW
             ⟨evsContent [UpEv.session (.obj [("ok", .bool true)]),
                          UpEv.deltaE ⟨"hi", "typing", none⟩], none, false⟩)],
           (⟨evsContent [UpEv.session (.obj [("ok", .bool true)]),
                         UpEv.deltaE ⟨"hi", "typing", none⟩], none, false⟩ : St), Term.ended)
    ∧ (stream_provider_response pjC5 cfgW true ["data: sess", "data: hi"]).2.2 = Term.ended
    ∧ ∀ x ∈ (stream_provider_response pjC5 cfgW true ["data: sess", "data: hi"]).1,
        frameFinish x = some .null ∧ x ≠ OutItem.done ∧ ∀ j, x ≠ OutItem.aggregate j :=
  ⟨rfl, rfl,
   (c5_flush_behaviour pjC5 cfgW ["data: sess", "data: hi"]
      [UpEv.session (.obj [("ok", .bool true)]), UpEv.deltaE ⟨"hi", "typing", none⟩]
      rfl rfl).1,
   (c5_flush_behaviour pjC5 cfgW ["data: sess", "data: hi"]
      [UpEv.session (.obj [("ok", .bool true)]), UpEv.deltaE ⟨"hi", "typing", none⟩]
      rfl rfl).2.1,
   (c5_flush_behaviour pjC5 cfgW ["data: sess", "data: hi"]
      [UpEv.session (.obj [("ok", .bool true)]), UpEv.deltaE ⟨"hi", "typing", none⟩]
      rfl rfl).2.2⟩

/-!  Claim C10  -/

/-- C10: a successfully parsed document that is not a session-opened
notification and whose first choice is not delta-shaped (no choices key, an
empty choices array, a non-object first choice, or a first choice object
without a delta key) is ignored entirely: the step emits nothing, leaves the
state (buffer, usage, first-chunk flag) unchanged and does not break, and
inserting such a document anywhere in a run leaves the run unchanged. -/
theorem c10_nondelta_ignored (cfg : Cfg) (sr : Bool) (kvs : List (String × JValue))
    (hses : jlookup kvs "response.created" = none)
    (hsh : jlookup kvs "choices" = none
         ∨ jlookup kvs "choices" = some (.arr [])
         ∨ (∃ c cs, jlookup kvs "choices" = some (.arr (c :: cs)) ∧ ∀ ckvs2, c ≠ .obj ckvs2)
         ∨ (∃ ckvs cs, jlookup kvs "choices" = some (.arr (.obj ckvs :: cs))
              ∧ jlookup ckvs "delta" = none)) :
    (∀ st, stepDoc cfg sr st (.obj kvs) = .ok (st, ([], false)))
    ∧ ∀ xs ys st, runDocs cfg sr (xs ++ JValue.obj kvs :: ys) st
        = runDocs cfg sr (xs ++ ys) st := by
  have hstep : ∀ st, stepDoc cfg sr st (.obj kvs) = .ok (st, ([], false)) := by
    intro st
    rcases hsh with h2 | h2 | ⟨c, cs, h2, hc⟩ | ⟨ckvs, cs, h2, hd⟩
    · simp [stepDoc, pyContains, hses, h2]
    · simp [stepDoc, pyContains, hses, h2, pyTruthy, pyGetD]
    · cases c with
      | obj ckvs2 => exact absurd rfl (hc ckvs2)
      | null => simp [stepDoc, pyContains, hses, h2, pyTruthy, pyGetD, pyLen, pyIndex0]
      | bool b => simp [stepDoc, pyContains, hses, h2, pyTruthy, pyGetD, pyLen, pyIndex0]
      | num n => simp [stepDoc, pyContains, hses, h2, pyTruthy, pyGetD, pyLen, pyIndex0]
      | str s => simp [stepDoc, pyContains, hses, h2, pyTruthy, pyGetD, pyLen, pyIndex0]
      | arr xs => simp [stepDoc, pyContains, hses, h2, pyTruthy, pyGetD, pyLen, pyIndex0]
    · simp [stepDoc, pyContains, hses, h2, pyTruthy, pyGetD, pyLen, pyIndex0, hd]
  exact ⟨hstep, fun xs ys st => runDocs_noop_insert cfg sr _ hstep xs ys st⟩

theorem c10_nondelta_ignored_witness :
    jlookup [("choices", JValue.arr [])] "response.created" = none
    ∧ (jlookup [("choices", JValue.arr [])] "choices" = some (.arr []))
    ∧ stepDoc cfgW true initSt (.obj [("choices", JValue.arr [])]) = .ok (initSt, ([], false))
    ∧ runDocs cfgW true ([] ++ JValue.obj [("choices", JValue.arr [])] :: []) initSt
        = runDocs cfgW true ([] ++ []) initSt :=
  ⟨rfl, rfl,
   (c10_nondelta_ignored cfgW true [("choices", JValue.arr [])] rfl (Or.inr (Or.inl rfl))).1
     initSt,
   (c10_nondelta_ignored cfgW true [("choices", JValue.arr [])] rfl (Or.inr (Or.inl rfl))).2
     [] [] initSt⟩

/-!  Claim C6  -/

def pjC6 : String → Option JValue := fun s =>
  if s == "ev" then
    some (DeltaEv.doc ⟨"X", "finished", some (.obj [("total_tokens", .num 5)])⟩)
  else none

/-- C6: evaluation of the code at the failing input. The single delta event
carries the usage object total_tokens 5, yet the non-streaming aggregate
response carries the empty usage object and the final state never remembered
any usage: the last-usage variable is only updated inside the streaming
branch (lines 253-256 sit under the `if stream_requested` of line 225), so in
non-streaming mode `usage or` of line 296 is always the empty object. In
streaming mode the same event's frame does carry the usage. -/
theorem c6_usage_lost_nonstreaming :
    objLookup (DeltaEv.doc ⟨"X", "finished", some (.obj [("total_tokens", .num 5)])⟩) "usage"
      = some (.obj [("total_tokens", .num 5)])
    ∧ stream_provider_response pjC6 cfgW false ["data: ev"]
        = ([OutItem.aggregate (aggDoc cfgW ⟨"X", none, false⟩)],
           (⟨"X", none, false⟩ : St), .finished)
    ∧ objLookup (aggDoc cfgW ⟨"X", none, false⟩) "usage" = some (.obj [])
    ∧ (⟨"X", none, false⟩ : St).usage = none
    ∧ JValue.obj [] ≠ JValue.obj [("total_tokens", .num 5)]
    ∧ (stream_provider_response pjC6 cfgW true ["data: ev"]).1
        = [OutItem.sse (.obj (evChunk cfgW initSt ⟨"X", "finished",
             some (.obj [("total_tokens", .num 5)])⟩)),
           OutItem.sse (.obj (finalChunk cfgW (some (.obj [("total_tokens", .num 5)])))),
           OutItem.done]
    ∧ objLookup (.obj (evChunk cfgW initSt ⟨"X", "finished",
         some (.obj [("total_tokens", .num 5)])⟩)) "usage"
        = some (.obj [("total_tokens", .num 5)]) := by
  refine ⟨rfl, rfl, rfl, rfl, ?_, rfl, rfl⟩
  intro hcontra
  injection hcontra with h2
  exact List.noConfusion h2

/-!  Claim C8  -/

/-- C8 counterexample: the provider directory exists and holds only
metadata.json; load returns a descriptor (not NotFound) that is missing both
the header block and the payload template. -/
def fsC8 : FS :=
  ⟨fun n => n == "p",
   fun n f => if n == "p" && f == "metadata.json" then some "meta" else none⟩

def pjC8 : String → Option JValue := fun s =>
  if s == "meta" then some (.obj [("host", .str "h")]) else none

theorem c8_counterexample :
    fsC8.hasDir "p" = true
    ∧ load_provider_config fsC8 pjC8 "p"
        = .ok (some ⟨some (.obj [("host", .str "h")]), none, none, none, none, none, none⟩)
    ∧ (⟨some (.obj [("host", .str "h")]), none, none, none, none, none, none⟩
        : ProviderConfig).headers = none
    ∧ (⟨some (.obj [("host", .str "h")]), none, none, none, none, none, none⟩
        : ProviderConfig).payload_template = none :=
  ⟨rfl, rfl, rfl, rfl⟩

/-- C8 amended: load returns NotFound (Python None) exactly when the provider
directory is absent; whenever the directory exists it returns a descriptor
(or raises on invalid JSON), even one missing some or all of the three
artifacts. -/
theorem c8_notfound_iff_no_dir (fs : FS) (pj : String → Option JValue) (name : String) :
    load_provider_config fs pj name = .ok none ↔ fs.hasDir name = false := by
  constructor
  · intro h
    by_cases hd : fs.hasDir name = true
    · exfalso
      simp only [load_provider_config, hd, Bool.not_true] at h
      simp only [Bool.false_eq_true, if_false] at h
      split at h
      · simp at h
      · split at h
        · simp at h
        · simp at h
    · simpa using hd
  · intro h
    simp [load_provider_config, h]

theorem c8_notfound_iff_no_dir_witness :
    load_provider_config fsC8 pjC8 "absent" = .ok none ↔ fsC8.hasDir "absent" = false :=
  c8_notfound_iff_no_dir fsC8 pjC8 "absent"

/-!  Claim C7  -/

/-- Lookup in the string-valued header dict. -/
def lookupStr : List (String × String) → String → Option String
  | [], _ => none
  | (k2, v) :: t, k => if k2 == k then some v else lookupStr t k

/-- The raw colon-separated header fields of a block (all lines after the
first), in order, duplicates preserved: the input `parse_headers` folds into
its dict. -/
def headerFields (t : String) : List (String × String) :=
  ((splitOnChar '\n' (pyStrip t)).drop 1).filterMap
    (fun line =>
      if line.data.contains ':' then
        some (pyStrip ((splitOnChar ':' line).headD ""),
              pyStrip (strIntercalate ":" ((splitOnChar ':' line).drop 1)))
      else none)

theorem parse_headers_eq_fold (t : String) :
    parse_headers t = (headerFields t).foldl (fun hs p => dictInsertStr hs p.1 p.2) [] := by
  unfold parse_headers headerFields
  suffices hgen : ∀ (ls : List String) (hs : List (String × String)),
      ls.foldl (fun hs line => if line.data.contains ':' then
          dictInsertStr hs (pyStrip ((splitOnChar ':' line).headD ""))
            (pyStrip (strIntercalate ":" ((splitOnChar ':' line).drop 1)))
        else hs) hs
      = (ls.filterMap (fun line => if line.data.contains ':' then
          some (pyStrip ((splitOnChar ':' line).headD ""),
                pyStrip (strIntercalate ":" ((splitOnChar ':' line).drop 1)))
        else none)).foldl (fun hs p => dictInsertStr hs p.1 p.2) hs by
    exact hgen _ []
  intro ls
  induction ls with
  | nil => intro hs; rfl
  | cons l rest ih =>
    intro hs
    by_cases hc : l.data.contains ':' = true
    · simp only [List.foldl_cons, List.filterMap_cons, hc, if_true]
      exact ih _
    · have hcf : l.data.contains ':' = false := by
        revert hc
        cases l.data.contains ':' <;> simp
      simp only [List.foldl_cons, List.filterMap_cons, hcf, Bool.false_eq_true, if_false]
      exact ih _

theorem keys_dictInsertStr (hs : List (String × String)) (k v : String) :
    (dictInsertStr hs k v).map Prod.fst
      = if k ∈ hs.map Prod.fst then hs.map Prod.fst else hs.map Prod.fst ++ [k] := by
  induction hs with
  | nil => simp [dictInsertStr]
  | cons p t ih =>
    rcases p with ⟨k2, v2⟩
    by_cases hk : k2 = k
    · subst hk
      simp [dictInsertStr]
    · have hkb : (k2 == k) = false := beq_eq_false_iff_ne.mpr hk
      have hkn : ¬ (k = k2) := fun h2 => hk h2.symm
      simp only [dictInsertStr, hkb, Bool.false_eq_true, if_false, List.map_cons]
      rw [ih]
      by_cases hmem : k ∈ t.map Prod.fst
      · simp [hmem, hkn]
      · simp [hmem, hkn]

theorem nodup_keys_dictInsertStr (hs : List (String × String)) (k v : String)
    (h : (hs.map Prod.fst).Nodup) : ((dictInsertStr hs k v).map Prod.fst).Nodup := by
  rw [keys_dictInsertStr]
  by_cases hmem : k ∈ hs.map Prod.fst
  · simpa [hmem] using h
  · simp only [hmem, if_false]
    rw [List.nodup_append]
    refine ⟨h, List.nodup_singleton k, ?_⟩
    intro a ha hb
    rw [List.mem_singleton] at hb
    subst hb
    exact hmem ha

theorem nodup_keys_fold (fields : List (String × String)) :
    ∀ hs, ((hs.map Prod.fst).Nodup) →
      ((fields.foldl (fun hs p => dictInsertStr hs p.1 p.2) hs).map Prod.fst).Nodup := by
  induction fields with
  | nil => exact fun hs h => h
  | cons f rest ih =>
    exact fun hs h => ih _ (nodup_keys_dictInsertStr hs f.1 f.2 h)

theorem lookupStr_insert_self (hs : List (String × String)) (k v : String) :
    lookupStr (dictInsertStr hs k v) k = some v := by
  induction hs with
  | nil => simp [dictInsertStr, lookupStr]
  | cons p t ih =>
    rcases p with ⟨k2, v2⟩
    by_cases hk : k2 = k
    · subst hk
      simp [dictInsertStr, lookupStr]
    · have hkb : (k2 == k) = false := beq_eq_false_iff_ne.mpr hk
      simp [dictInsertStr, lookupStr, hkb, ih]

theorem lookupStr_insert_ne (hs : List (String × String)) (k1 v k : String)
    (h : (k1 == k) = false) :
    lookupStr (dictInsertStr hs k1 v) k = lookupStr hs k := by
  induction hs with
  | nil => simp [dictInsertStr, lookupStr, h]
  | cons p t ih =>
    rcases p with ⟨k2, v2⟩
    by_cases hk : k2 = k1
    · subst hk
      simp [dictInsertStr, lookupStr, h]
    · have hkb : (k2 == k1) = false := beq_eq_false_iff_ne.mpr hk
      simp only [dictInsertStr, hkb, Bool.false_eq_true, if_false]
      simp [lookupStr, ih]

theorem find?_append_some {α : Type} (p : α → Bool) (l1 l2 : List α) (a : α)
    (h : l1.find? p = some a) : (l1 ++ l2).find? p = some a := by
  induction l1 with
  | nil => simp [List.find?] at h
  | cons x t ih =>
    simp only [List.find?, List.cons_append] at h ⊢
    cases hp : p x with
    | true => rw [hp] at h; simpa [hp] using h
    | false => rw [hp] at h; simpa [hp] using ih h

theorem find?_append_none {α : Type} (p : α → Bool) (l1 l2 : List α)
    (h : l1.find? p = none) : (l1 ++ l2).find? p = l2.find? p := by
  induction l1 with
  | nil => rfl
  | cons x t ih =>
    simp only [List.find?, List.cons_append] at h ⊢
    cases hp : p x with
    | true => rw [hp] at h; simp at h
    | false => rw [hp] at h; simpa [hp] using ih h

theorem fold_insert_lookup (fields : List (String × String)) :
    ∀ (hs : List (String × String)) (k : String),
      lookupStr (fields.foldl (fun hs p => dictInsertStr hs p.1 p.2) hs) k
        = (match fields.reverse.find? (fun p => p.1 == k) with
           | some p => some p.2
           | none => lookupStr hs k) := by
  induction fields with
  | nil => intro hs k; rfl
  | cons f rest ih =>
    intro hs k
    simp only [List.foldl_cons, List.reverse_cons]
    rw [ih]
    cases hfind : rest.reverse.find? (fun p => p.1 == k) with
    | some p => rw [find?_append_some _ _ _ _ hfind]
    | none =>
      rw [find?_append_none _ _ _ hfind]
      simp only [List.find?]
      cases hp : (f.1 == k) with
      | true =>
        have : f.1 = k := eq_of_beq hp
        subst this
        simp [lookupStr_insert_self]
      | false =>
        simp [lookupStr_insert_ne hs f.1 f.2 k hp]

theorem parse_headers_lookup (t k : String) :
    lookupStr (parse_headers t) k
      = ((headerFields t).reverse.find? (fun p => p.1 == k)).map Prod.snd := by
  rw [parse_headers_eq_fold, fold_insert_lookup]
  cases (headerFields t).reverse.find? (fun p => p.1 == k) <;> rfl

/-- C7 counterexample: a header block with a duplicate key. `parse_headers`
collapses the two A-fields into one dict entry holding the last value, so the
set sent upstream is not the field set of the block (which has two entries). -/
theorem c7_counterexample :
    parse_headers "POST /x HTTP/1.1\nA: 1\nA: 2" = [("A", "2")]
    ∧ headerFields "POST /x HTTP/1.1\nA: 1\nA: 2" = [("A", "1"), ("A", "2")]
    ∧ (parse_headers "POST /x HTTP/1.1\nA: 1\nA: 2").length = 1 :=
  ⟨rfl, rfl, rfl⟩

/-- C7 amended: the header set sent upstream equals the parsed header dict of
the descriptor, with nothing added or removed in this code path; but parsing
is not byte-for-byte field copying: keys and values are whitespace-stripped
and duplicate keys collapse into one entry whose value is the last
occurrence's. -/
theorem c7_headers_sent_deduped :
    (∀ (config : ProviderConfig) (payload : JValue) (stream : Bool)
       (hs : List (String × String)) (req : UpstreamRequest),
       config.headers = some hs →
       make_provider_request config payload stream = .ok req → req.headers = hs)
    ∧ (∀ t, ((parse_headers t).map Prod.fst).Nodup)
    ∧ (∀ t k, lookupStr (parse_headers t) k
         = ((headerFields t).reverse.find? (fun p => p.1 == k)).map Prod.snd) := by
  refine ⟨?_, ?_, parse_headers_lookup⟩
  · intro config payload stream hs req hh hok
    rcases hmeta : config.metadata with _ | metadata
    · simp [make_provider_request, hmeta] at hok
    · rcases metadata with _ | b | n | s | xs | kvs
      · simp [make_provider_request, hmeta, hh] at hok
      · simp [make_provider_request, hmeta, hh] at hok
      · simp [make_provider_request, hmeta, hh] at hok
      · simp [make_provider_request, hmeta, hh] at hok
      · simp [make_provider_request, hmeta, hh] at hok
      · rcases hhost : jlookup kvs "host" with _ | hostV
        · simp [make_provider_request, hmeta, hh, hhost] at hok
        · simp only [make_provider_request, hmeta, hh, hhost] at hok
          injection hok with h2
          rw [← h2]
  · intro t
    rw [parse_headers_eq_fold]
    exact nodup_keys_fold _ [] (by simp)

def configC7 : ProviderConfig :=
  ⟨some (.obj [("host", .str "h")]), some [("A", "2")], none, none, none, none, none⟩

theorem c7_headers_sent_deduped_witness :
    configC7.headers = some [("A", "2")]
    ∧ make_provider_request configC7 (.obj []) true
        = .ok ⟨"https://h/api/v2/chat/completions", [("A", "2")], .obj [], true, 60⟩
    ∧ (⟨"https://h/api/v2/chat/completions", [("A", "2")], .obj [], true, 60⟩
        : UpstreamRequest).headers = [("A", "2")]
    ∧ ((parse_headers "POST /x HTTP/1.1\nA: 1\nA: 2").map Prod.fst).Nodup
    ∧ lookupStr (parse_headers "POST /x HTTP/1.1\nA: 1\nA: 2") "A"
        = ((headerFields "POST /x HTTP/1.1\nA: 1\nA: 2").reverse.find?
            (fun p => p.1 == "A")).map Prod.snd :=
  ⟨rfl, rfl,
   c7_headers_sent_deduped.1 configC7 (.obj []) true [("A", "2")]
     ⟨"https://h/api/v2/chat/completions", [("A", "2")], .obj [], true, 60⟩ rfl rfl,
   c7_headers_sent_deduped.2.1 "POST /x HTTP/1.1\nA: 1\nA: 2",
   c7_headers_sent_deduped.2.2 "POST /x HTTP/1.1\nA: 1\nA: 2" "A"⟩

/-!  Claim C9  -/

theorem jlookup_insert_self (kvs : List (String × JValue)) (k : String) (v : JValue) :
    jlookup (dictInsertJ kvs k v) k = some v := by
  induction kvs with
  | nil => simp [dictInsertJ, jlookup]
  | cons p t ih =>
    rcases p with ⟨k2, v2⟩
    by_cases hk : k2 = k
    · subst hk
      simp [dictInsertJ, jlookup]
    · have hkb : (k2 == k) = false := beq_eq_false_iff_ne.mpr hk
      simp [dictInsertJ, jlookup, hkb, ih]

theorem jlookup_insert_ne (kvs : List (String × JValue)) (k1 : String) (v : JValue)
    (k : String) (h : (k1 == k) = false) :
    jlookup (dictInsertJ kvs k1 v) k = jlookup kvs k := by
  induction kvs with
  | nil => simp [dictInsertJ, jlookup, h]
  | cons p t ih =>
    rcases p with ⟨k2, v2⟩
    by_cases hk : k2 = k1
    · subst hk
      simp [dictInsertJ, jlookup, h]
    · have hkb : (k2 == k1) = false := beq_eq_false_iff_ne.mpr hk
      simp only [dictInsertJ, hkb, Bool.false_eq_true, if_false]
      simp [jlookup, ih]

/-- Instantiating one provider message from an example message that carries a
models field, under a template with a truthy model value v, always yields a
message whose models field is the singleton array of v (the template's own
model, not the requested one). -/
theorem instantiateMsg_models (mkvs : List (String × JValue)) (v : JValue)
    (now : Int) (idx : Nat) (m pm : JValue)
    (hmm : (jlookup mkvs "models").isSome = true) (hv : pyTruthy v = true)
    (hok : instantiateMsg (.obj mkvs) (some v) now idx m = .ok pm) :
    objLookup pm "models" = some (.arr [v]) := by
  unfold instantiateMsg at hok
  rcases hr : pyGetD m "role" (.str "user") with e | role
  · rw [hr] at hok
    exact absurd hok (by simp)
  · rw [hr] at hok
    try simp only [] at hok
    rcases hc : pyGetD m "content" (.str "") with e | content
    · rw [hc] at hok
      exact absurd hok (by simp)
    · rw [hc] at hok
      simp only [objSet] at hok
      have h1 : jlookup (dictInsertJ (dictInsertJ mkvs "role" role) "content" content)
          "models" = jlookup mkvs "models" := by
        rw [jlookup_insert_ne (dictInsertJ mkvs "role" role) "content" content "models" rfl,
            jlookup_insert_ne mkvs "role" role "models" rfl]
      by_cases hts : objHasKey
          (.obj (dictInsertJ (dictInsertJ mkvs "role" role) "content" content))
          "timestamp" = true
      · rw [if_pos hts] at hok
        simp only [objSet] at hok
        have h2 : jlookup (dictInsertJ (dictInsertJ (dictInsertJ mkvs "role" role)
            "content" content) "timestamp" (.num (now + idx * 10))) "models"
            = jlookup mkvs "models" := by
          rw [jlookup_insert_ne (dictInsertJ (dictInsertJ mkvs "role" role) "content"
                content) "timestamp" (.num (now + idx * 10)) "models" rfl, h1]
        have hhk : (objHasKey (.obj (dictInsertJ (dictInsertJ (dictInsertJ mkvs "role" role)
            "content" content) "timestamp" (.num (now + idx * 10)))) "models"
            && pyTruthy v) = true := by
          simp only [objHasKey, objLookup, h2, hv, Bool.and_true]
          exact hmm
        rw [if_pos hhk] at hok
        try simp only [] at hok
        injection hok with h3
        rw [← h3]
        simp [objLookup, jlookup_insert_self]
      · rw [if_neg hts] at hok
        try simp only [] at hok
        have hhk : (objHasKey
            (.obj (dictInsertJ (dictInsertJ mkvs "role" role) "content" content))
            "models" && pyTruthy v) = true := by
          simp only [objHasKey, objLookup, h1, hv, Bool.and_true]
          exact hmm
        rw [if_pos hhk] at hok
        try simp only [] at hok
        injection hok with h3
        rw [← h3]
        simp [objLookup, jlookup_insert_self]

/-- Every message instantiated by the enumerate loop carries the template's
model as its models field. -/
theorem buildMsgs_models (mkvs : List (String × JValue)) (v : JValue) (now : Int)
    (hmm : (jlookup mkvs "models").isSome = true) (hv : pyTruthy v = true) :
    ∀ (msgs : List JValue) (idx : Nat) (pms : List JValue),
      buildMsgs (.obj mkvs) (some v) now idx msgs = .ok pms →
      ∀ pm ∈ pms, objLookup pm "models" = some (.arr [v]) := by
  intro msgs
  induction msgs with
  | nil =>
    intro idx pms hok pm hpm
    simp only [buildMsgs] at hok
    injection hok with h2
    rw [← h2] at hpm
    simp at hpm
  | cons m rest ih =>
    intro idx pms hok pm hpm
    simp only [buildMsgs] at hok
    rcases h1 : instantiateMsg (.obj mkvs) (some v) now idx m with e | pm1
    · rw [h1] at hok
      exact absurd hok (by simp)
    · rw [h1] at hok
      rcases h2 : buildMsgs (.obj mkvs) (some v) now (idx + 1) rest with e | pms1
      · rw [h2] at hok
        exact absurd hok (by simp)
      · rw [h2] at hok
        injection hok with h3
        rw [← h3] at hpm
        rcases List.mem_cons.mp hpm with h4 | h4
        · subst h4
          exact instantiateMsg_models mkvs v now idx m pm hmm hv h1
        · exact ih (idx + 1) pms1 h2 pm h4

/-- C9 counterexample: the caller requests model "foo"; the template declares
model "bar" and an example message with a models field. The instantiated
message's models field is the singleton of the template's "bar", not of the
requested "foo" (the commented-out lines 67-69 of the source are the disabled
use of the request's model). -/
def odC9 : JValue :=
  .obj [("model", .str "foo"),
        ("messages", .arr [.obj [("role", .str "user"), ("content", .str "hi")]])]

def tmplC9 : JValue :=
  .obj [("model", .str "bar"), ("messages", .arr [.obj [("models", .arr [.str "x"])]])]

def cfgC9 : ProviderConfig := ⟨none, none, none, none, none, some tmplC9, none⟩

theorem c9_counterexample :
    objLookup odC9 "model" = some (.str "foo")
    ∧ build_provider_payload 0 odC9 cfgC9
        = .ok (.obj [("model", .str "bar"),
                     ("messages", .arr [.obj [("models", .arr [.str "bar"]),
                                              ("role", .str "user"),
                                              ("content", .str "hi")]])])
    ∧ JValue.arr [.str "bar"] ≠ JValue.arr [.str "foo"] := by
  refine ⟨rfl, rfl, ?_⟩
  intro hcontra
  injection hcontra with h1
  injection h1 with h2 h3
  injection h2 with h4
  exact absurd h4 (by decide)

/-- C9 amended: whenever the template is an object with a truthy model value
v and its first example message carries a models field, every message of the
built payload has models equal to the singleton array of v — the template's
own model; the model named in the caller's request is not consulted. -/
theorem c9_models_from_template (now : Int) (od : JValue) (config : ProviderConfig)
    (kvs mkvs : List (String × JValue)) (restm : List JValue) (v : JValue)
    (payload : JValue)
    (htmpl : config.payload_template = some (.obj kvs))
    (hmodel : jlookup kvs "model" = some v) (hv : pyTruthy v = true)
    (hmsgs : jlookup kvs "messages" = some (.arr (.obj mkvs :: restm)))
    (hmm : (jlookup mkvs "models").isSome = true)
    (hok : build_provider_payload now od config = .ok payload) :
    ∃ pms, objLookup payload "messages" = some (.arr pms)
      ∧ ∀ pm ∈ pms, objLookup pm "models" = some (.arr [v]) := by
  unfold build_provider_payload at hok
  rw [htmpl] at hok
  try simp only [] at hok
  rcases hmv : pyGetD od "messages" (.arr []) with e | msgsV
  · rw [hmv] at hok
    exact absurd hok (by simp)
  · rw [hmv] at hok
    try simp only [] at hok
    rcases hit : pyIterate msgsV with e | msgsList
    · rw [hit] at hok
      exact absurd hok (by simp)
    · rw [hit] at hok
      try simp only [] at hok
      have hbm : build_provider_messages now msgsList (.obj kvs)
          = buildMsgs (.obj mkvs) (jlookup kvs "model") now 0 msgsList := by
        unfold build_provider_messages
        simp [pyGetD, hmsgs, pyTruthy, pyIndex0]
      rw [hbm, hmodel] at hok
      rcases hbmr : buildMsgs (.obj mkvs) (some v) now 0 msgsList with e | pms
      · rw [hbmr] at hok
        exact absurd hok (by simp)
      · rw [hbmr] at hok
        try simp only [] at hok
        simp only [objSet] at hok
        have hlk1 : jlookup (dictInsertJ kvs "messages" (.arr pms)) "messages"
            = some (.arr pms) := jlookup_insert_self kvs "messages" (.arr pms)
        refine ⟨pms, ?_, buildMsgs_models mkvs v now hmm hv msgsList 0 pms hbmr⟩
        by_cases hts : objHasKey (.obj (dictInsertJ kvs "messages" (.arr pms)))
            "timestamp" = true
        · rw [if_pos hts] at hok
          simp only [objSet] at hok
          have hlk2 : jlookup (dictInsertJ (dictInsertJ kvs "messages" (.arr pms))
              "timestamp" (.num now)) "messages" = some (.arr pms) := by
            rw [jlookup_insert_ne (dictInsertJ kvs "messages" (.arr pms)) "timestamp"
                  (.num now) "messages" rfl, hlk1]
          rcases hstr : pyGetD (config.metadata.getD (.obj [])) "stream" (.bool true)
              with e | streams
          · rw [hstr] at hok
            exact absurd hok (by simp)
          · rw [hstr] at hok
            try simp only [] at hok
            by_cases hsk : objHasKey (.obj (dictInsertJ (dictInsertJ kvs "messages"
                (.arr pms)) "timestamp" (.num now))) "stream" = true
            · rw [if_pos hsk] at hok
              try simp only [] at hok
              injection hok with h3
              rw [← h3]
              simp only [objLookup]
              rw [jlookup_insert_ne (dictInsertJ (dictInsertJ kvs "messages" (.arr pms))
                    "timestamp" (.num now)) "stream" streams "messages" rfl, hlk2]
            · rw [if_neg hsk] at hok
              injection hok with h3
              rw [← h3]
              simpa [objLookup] using hlk2
        · rw [if_neg hts] at hok
          try simp only [] at hok
          rcases hstr : pyGetD (config.metadata.getD (.obj [])) "stream" (.bool true)
              with e | streams
          · rw [hstr] at hok
            exact absurd hok (by simp)
          · rw [hstr] at hok
            try simp only [] at hok
            by_cases hsk : objHasKey (.obj (dictInsertJ kvs "messages" (.arr pms)))
                "stream" = true
            · rw [if_pos hsk] at hok
              try simp only [] at hok
              injection hok with h3
              rw [← h3]
              simp only [objLookup]
              rw [jlookup_insert_ne (dictInsertJ kvs "messages" (.arr pms)) "stream"
                    streams "messages" rfl, hlk1]
            · rw [if_neg hsk] at hok
              injection hok with h3
              rw [← h3]
              simpa [objLookup] using hlk1

theorem c9_models_from_template_witness :
    cfgC9.payload_template = some tmplC9
    ∧ pyTruthy (.str "bar") = true
    ∧ ∃ pms, objLookup (.obj [("model", .str "bar"),
          ("messages", .arr [.obj [("models", .arr [.str "bar"]),
                                   ("role", .str "user"),
                                   ("content", .str "hi")]])]) "messages"
        = some (.arr pms)
      ∧ ∀ pm ∈ pms, objLookup pm "models" = some (.arr [.str "bar"]) :=
  ⟨rfl, rfl,
   c9_models_from_template 0 odC9 cfgC9
     [("model", .str "bar"), ("messages", .arr [.obj [("models", .arr [.str "x"])]])]
     [("models", .arr [.str "x"])] [] (.str "bar")
     (.obj [("model", .str "bar"),
            ("messages", .arr [.obj [("models", .arr [.str "bar"]),
                                     ("role", .str "user"),
                                     ("content", .str "hi")]])])
     rfl rfl rfl rfl rfl rfl⟩

end RevApi
